import Mathlib

/-!
Shallow embedding of `src/ps2mqtt/daemon.py` (ps2mqtt daemon).

Modelling conventions:
- Python floats (values returned by `psutil` and `time.time()`) are modelled
  as exact rationals `ℚ`; Python float arithmetic is exact rational arithmetic.
- The global dict `last` is an association list threaded explicitly; the
  implicit `time.time()` call inside `rate` becomes an explicit `now` argument.
- Python exceptions are modelled with `Except String`.
- `python-slugify` on ASCII input lowercases the text and replaces each
  maximal run of non-alphanumeric characters by a single hyphen, dropping
  leading and trailing separators; `slugChars` below implements exactly that.
-/

namespace PS2MQTT

/-! ### slugify -/

/-- A character kept by `slugify`: ASCII letter or digit. -/
def isWordChar (c : Char) : Bool := c.isAlphanum

/-- Splits a character list into the word being built at the head and the
completed alphanumeric runs behind it, each lowercased.  Helper of `words`. -/
def runsAux : List Char → List Char × List (List Char)
  | [] => ([], [])
  | c :: cs =>
    let r := runsAux cs
    if isWordChar c then (c.toLower :: r.1, r.2)
    else ([], if r.1 = [] then r.2 else r.1 :: r.2)

/-- The maximal alphanumeric runs of a character list, lowercased, in order. -/
def words (l : List Char) : List (List Char) :=
  if (runsAux l).1 = [] then (runsAux l).2 else (runsAux l).1 :: (runsAux l).2

/-- Joins words with single hyphens (the separator of `python-slugify`). -/
def joinWords : List (List Char) → List Char
  | [] => []
  | [w] => w
  | w :: ws => w ++ '-' :: joinWords ws

/-- Embeds `slugify` from `python-slugify` on ASCII text: lowercase, collapse
every non-alphanumeric run to one hyphen, strip leading/trailing separators. -/
def slugChars (l : List Char) : List Char := joinWords (words l)

/-- String-level slugify. -/
def slugify (s : String) : String := ⟨slugChars s.data⟩

/-- The slug of a metric key alone; helper for reasoning about unique ids. -/
def slugKey (k : String) : List Char := joinWords (words k.data)

/-! ### Topic format strings (daemon.py lines 24-29) -/

/-- Embeds applying the status-topic format string of daemon.py line 25. -/
def mqttStatusTopic (base : String) : String := base ++ "/status"

/-- Embeds applying the state-topic format string of daemon.py line 26. -/
def stateTopic (base p : String) : String := base ++ "/" ++ p

/-- Embeds applying the discovery-topic format string of daemon.py line 29. -/
def haDiscoveryTopic (pre slug p : String) : String :=
  pre ++ "/sensor/ps2mqtt_" ++ slug ++ "/" ++ p ++ "/config"

/-- daemon.py line 27. -/
def MQTT_AVAILABLE : String := "online"

/-- daemon.py line 28. -/
def MQTT_NOT_AVAILABLE : String := "offline"

/-! ### Association-list model of Python dicts -/

/-- Value of a key in a Python dict modelled as an association list. -/
def lookupA {β : Type} (k : String) : List (String × β) → Option β
  | [] => none
  | (k', v) :: t => if k' = k then some v else lookupA k t

/-- Dict update of key `k` to `v`: overwrites in place, appends when absent. -/
def setA {β : Type} (k : String) (v : β) : List (String × β) → List (String × β)
  | [] => [(k, v)]
  | (k', v') :: t => if k' = k then (k, v) :: t else (k', v') :: setA k v t

/-! ### Decimal context with precision 2 (daemon.py line 22)

Setting the decimal context's precision to 2 makes every `Decimal` division
round its result to 2 significant digits with the default rounding mode
ROUND_HALF_EVEN. -/

/-- Rounds a rational to the nearest integer, ties to even
(Python decimal's default ROUND_HALF_EVEN). -/
def roundHalfEven (q : ℚ) : ℤ :=
  let f := ⌊q⌋
  if q - f < 1/2 then f
  else if (1 : ℚ)/2 < q - f then f + 1
  else if f % 2 = 0 then f else f + 1

/-- Rounds a rational to 2 significant decimal digits, ties to even: the
value a `Decimal` division produces under a context precision of 2. -/
def roundSig2 (q : ℚ) : ℚ :=
  if q = 0 then 0
  else
    let a : ℚ := |q|
    let e : ℤ := Int.log 10 a
    let m : ℤ := roundHalfEven (a / 10 ^ (e - 1))
    (if q < 0 then -1 else 1) * m * (10 : ℚ) ^ (e - 1)

/-! ### rate (daemon.py lines 40-49) -/

/-- Embeds `rate(key, value)` of daemon.py lines 40-49.  The global dict
`last` is the explicit `last` argument and `time.time()` the explicit `now`.
When `key` is present with stored `(ltime, lvalue)`, the code computes
`Decimal(value - lvalue) / Decimal(now - ltime)` under precision 2; when
`now = ltime` that division raises (`decimal.DivisionByZero`, or
`InvalidOperation` for 0/0), and since the store assignment
`last[key] = now, value` only runs after the division, the store is left
unchanged on that raise. -/
def rate (last : List (String × ℚ × ℚ)) (key : String) (value : ℚ) (now : ℚ) :
    Except String (ℚ × List (String × ℚ × ℚ)) :=
  match lookupA key last with
  | none => .ok (0, setA key (now, value) last)
  | some (ltime, lvalue) =>
    if now = ltime then .error "decimal division by zero"
    else .ok (roundSig2 ((value - lvalue) / (now - ltime)), setA key (now, value) last)

/-- The rate store after a call of `rate`: the updated store on success, the
unchanged store when the division raised (the assignment never ran). -/
def rateStore (last : List (String × ℚ × ℚ)) (key : String) (value : ℚ) (now : ℚ) :
    List (String × ℚ × ℚ) :=
  match rate last key value now with
  | .ok (_, st) => st
  | .error _ => last

/-! ### load_properties (daemon.py lines 52-103) -/

/-- Python `int()` applied to a rational: truncation toward zero. -/
def pyInt (q : ℚ) : ℤ := if 0 ≤ q then ⌊q⌋ else ⌈q⌉

/-- Embeds the `bytes_sent` / `bytes_recv` sampling lambdas (daemon.py lines
74 and 79): `int(counter / 1000000)`, float division modelled as exact
rational division. -/
def bytesScaled (counter : ℕ) : ℤ := pyInt ((counter : ℚ) / 1000000)

/-- Metadata of one registry entry: the Python dict's optional keys
`device_class`, `icon`, `unit_of_measurement` (daemon.py line 31). -/
structure MetricDef where
  device_class : Option String := none
  icon : Option String := none
  unit_of_measurement : Option String := none
deriving DecidableEq, Repr

/-- daemon.py line 31. -/
def OPTIONAL_ATTR : List String := ["device_class", "icon", "unit_of_measurement"]

/-- Membership test of `attr` among the optional keys of a registry entry's
dict, as `gen_ha_config`'s loop performs it. -/
def attrGet (d : MetricDef) (attr : String) : Option String :=
  if attr = "device_class" then d.device_class
  else if attr = "icon" then d.icon
  else if attr = "unit_of_measurement" then d.unit_of_measurement
  else none

/-- Embeds the temperature-sensor loop of `load_properties` (daemon.py lines
95-101).  Each Python lambda
`lambda: psutil.sensors_temperatures()[temp_sensor][0].current`
captures the loop variable `temp_sensor` by reference (late binding): when a
lambda is invoked — always after `load_properties` has returned — the
variable `temp_sensor` holds the name of the last iterated sensor group, so
the lambda reads that group's first reading.  `groups` is the iteration
order of the host's sensor groups and `temps g` the current first reading of
group `g`; the returned list maps each registry key to the value its
sampling function produces when invoked. -/
def tempEntries (groups : List String) (temps : String → ℚ) : List (String × ℚ) :=
  match groups.getLast? with
  | none => []
  | some g => groups.map (fun s => (s, temps g))

/-- A concrete host's temperature readings: group "coretemp" reads 40,
every other group reads 50. -/
def tempsEx (g : String) : ℚ := if g = "coretemp" then 40 else 50

/-- The seven statically declared registry keys of `load_properties`
(daemon.py lines 54-93), in insertion order. -/
def staticKeys : List String :=
  ["cpu_percent", "virtual_memory", "uptime", "bytes_sent", "bytes_recv",
   "upload", "download"]

/-! ### gen_ha_config (daemon.py lines 106-128) -/

/-- JSON values appearing in the discovery payload (serialization by
`json.dumps` is abstracted; Python dicts keep insertion order, modelled by
the field list's order). -/
inductive JVal where
  | str : String → JVal
  | obj : List (String × JVal) → JVal

/-- Embeds `gen_ha_config(sensor, properties, base_topic)` (daemon.py lines
106-128): the mandatory fields of `json_config` in insertion order, then one
field per element of `OPTIONAL_ATTR` present in the sensor's dict
`properties[sensor]`, which is passed directly as `d`.  `host`, `plat`,
`sys`, `ver` stand for `platform.node()`, `platform.platform()`,
`platform.system()` and the module version. -/
def genHaConfig (sensor : String) (d : MetricDef) (base_topic host plat sys ver : String) :
    List (String × JVal) :=
  [("name", JVal.str sensor),
   ("unique_id", JVal.str (slugify (host ++ " " ++ sensor))),
   ("object_id", JVal.str (slugify (host ++ " " ++ sensor))),
   ("state_topic", JVal.str (stateTopic base_topic sensor)),
   ("availability_topic", JVal.str (mqttStatusTopic base_topic)),
   ("payload_available", JVal.str MQTT_AVAILABLE),
   ("payload_not_available", JVal.str MQTT_NOT_AVAILABLE),
   ("device", JVal.obj
     [("identifiers", JVal.str (host ++ "_ps2mqtt")),
      ("name", JVal.str host),
      ("sw_version", JVal.str plat),
      ("model", JVal.str sys),
      ("manufacturer", JVal.str ("ps2mqtt " ++ ver))])] ++
  OPTIONAL_ATTR.filterMap (fun a => (attrGet d a).map (fun v => (a, JVal.str v)))

/-! ### status and on_connect (daemon.py lines 131-150) -/

/-- One publish call of the MQTT client. -/
structure Pub where
  topic : String
  payload : JVal
  retain : Bool

/-- Embeds `status(mqttc, properties, s, period, base_topic)` (daemon.py
lines 131-135) for one tick.  Each entry's sampling function has already
produced `Except.ok` a value or `Except.error` (raised); the Python `for`
loop publishes each value in turn, an exception propagates out of the loop
immediately, and `s.enter` — re-arming the next tick — runs only if no
sampler raised.  Returns the published `(topic, value)` events of the tick
and whether the loop was re-armed. -/
def statusTick (props : List (String × Except String JVal)) (base : String) :
    List (String × JVal) × Bool :=
  match props with
  | [] => ([], true)
  | (p, c) :: rest =>
    match c with
    | .error _ => ([], false)
    | .ok v =>
      let r := statusTick rest base
      ((stateTopic base p, v) :: r.1, r.2)

/-- Embeds `on_connect(client, userdata, flags, result)` (daemon.py lines
138-150): the publish calls it makes, in order — first the retained
availability `MQTT_AVAILABLE` on the status topic, then per registry entry a
retained discovery record on the discovery topic built from the discovery
prefix argument, the slugified hostname and the entry's key. -/
def onConnect (props : List (String × MetricDef)) (haPre base_topic host plat sys ver : String) :
    List Pub :=
  { topic := mqttStatusTopic base_topic, payload := JVal.str MQTT_AVAILABLE, retain := true } ::
  props.map (fun pd =>
    { topic := haDiscoveryTopic haPre (slugify host) pd.1
      payload := JVal.obj (genHaConfig pd.1 pd.2 base_topic host plat sys ver)
      retain := true })

/-! ### Helper lemmas -/

/-- Updating a key makes it readable back. -/
theorem lookupA_setA_self {β : Type} (k : String) (v : β) (l : List (String × β)) :
    lookupA k (setA k v l) = some v := by
  induction l with
  | nil => simp [setA, lookupA]
  | cons h t ih =>
    obtain ⟨k', v'⟩ := h
    by_cases hk : k' = k
    · simp [setA, hk, lookupA]
    · simp [setA, hk, lookupA, ih]

/-- Updating one key leaves every other key's value unchanged. -/
theorem lookupA_setA_ne {β : Type} {k k' : String} (hk : k' ≠ k) (v : β)
    (l : List (String × β)) : lookupA k' (setA k v l) = lookupA k' l := by
  have hk2 : k ≠ k' := Ne.symm hk
  induction l with
  | nil => simp [setA, lookupA, hk2]
  | cons h t ih =>
    obtain ⟨k'', v''⟩ := h
    by_cases hkk : k'' = k
    · subst hkk
      simp [setA, lookupA, hk2]
    · simp [setA, hkk, lookupA, ih]

/-- A separator splits `runsAux` cleanly: left of it the runs of `a`, right
of it the words of `b`. -/
theorem runsAux_append_sep (a b : List Char) :
    runsAux (a ++ ' ' :: b) = ((runsAux a).1, (runsAux a).2 ++ words b) := by
  induction a with
  | nil => simp [runsAux, words, isWordChar]
  | cons c a ih =>
    by_cases hc : isWordChar c
    · simp [runsAux, hc, ih]
    · simp only [List.cons_append, runsAux, hc, Bool.false_eq_true, ite_false, ih]
      by_cases h1 : (runsAux a).1 = [] <;> simp [ih, h1]

/-- The words of a text with a blank in the middle are the words of the two
halves, concatenated. -/
theorem words_append_sep (a b : List Char) :
    words (a ++ ' ' :: b) = words a ++ words b := by
  simp only [words, runsAux_append_sep]
  by_cases h1 : (runsAux a).1 = [] <;> simp [h1]

/-- Unfolding `joinWords` at a cons with a nonempty tail. -/
theorem joinWords_cons (w : List Char) (ws : List (List Char)) (hws : ws ≠ []) :
    joinWords (w :: ws) = w ++ '-' :: joinWords ws := by
  cases ws with
  | nil => exact absurd rfl hws
  | cons w' ws' => rfl

/-- Joining a shared word prefix with two nonempty suffixes is cancellative. -/
theorem joinWords_append_cancel (ws A B : List (List Char)) (hA : A ≠ []) (hB : B ≠ [])
    (h : joinWords (ws ++ A) = joinWords (ws ++ B)) : joinWords A = joinWords B := by
  induction ws with
  | nil => simpa using h
  | cons w ws ih =>
    rcases List.exists_cons_of_ne_nil hA with ⟨a0, A', rfl⟩
    rcases List.exists_cons_of_ne_nil hB with ⟨b0, B', rfl⟩
    rw [List.cons_append, List.cons_append, joinWords_cons _ _ (by simp),
      joinWords_cons _ _ (by simp)] at h
    exact ih (by simpa using List.append_cancel_left h)

/-- The slugs of the seven static registry keys are pairwise distinct. -/
theorem staticKeys_slug_nodup : (staticKeys.map slugKey).Nodup := by decide

/-- Every static registry key contains at least one alphanumeric run. -/
theorem staticKeys_words_ne_nil : ∀ k ∈ staticKeys, words k.data ≠ [] := by decide

/-- The slug of hostname-blank-key splits into the two slugified halves. -/
theorem uid_split (host k : String) :
    slugify (host ++ " " ++ k) = ⟨joinWords (words host.data ++ words k.data)⟩ := by
  have h : (host ++ " " ++ k).data = host.data ++ ' ' :: k.data := by
    simp [String.data_append]
  rw [slugify, slugChars, h, words_append_sep]

/-- The unique_id field of a discovery payload is the slugified
hostname-blank-key. -/
theorem lookupA_genHaConfig_unique_id (sensor : String) (d : MetricDef)
    (base host plat sys ver : String) :
    lookupA "unique_id" (genHaConfig sensor d base host plat sys ver)
      = some (JVal.str (slugify (host ++ " " ++ sensor))) := rfl

/-! ### Claim theorems -/

/-- Claim C1: the claim says a second `rate` call with zero elapsed time does
not raise and returns a fallback.  The code disagrees: with key "k" stored at
time 5 and a second call at the same time 5, the `Decimal` division raises —
the call returns no value at all (a code bug; the spec's defensive policy is
the intent and the code lacks it). -/
theorem rate_zero_elapsed_raises :
    rate [("k", (5, 100))] "k" 120 5 = .error "decimal division by zero" := rfl

/-- Claim C2: the claim says one raising sampler must not block the other
metrics' publication on that tick, nor the re-arming of the loop.  The code
disagrees: on a tick over entries a, b, c where b's sampler raises, only a is
published, c is not, and the loop is not re-armed (a code bug; the spec
itself flags the missing isolation as required hardening). -/
theorem statusTick_aborts :
    statusTick [("a", Except.ok (JVal.str "1")), ("b", Except.error "boom"),
        ("c", Except.ok (JVal.str "2"))] "base"
      = ([(stateTopic "base" "a", JVal.str "1")], false) := rfl

/-- Claim C3: the claim says each temperature entry's sampling function
returns the temperature of its own sensor group.  The code disagrees: the
registry does hold one entry per group, but with groups coretemp and acpitz
where coretemp reads 40 and acpitz reads 50, the coretemp entry's sampling
function returns 50 — the last group's reading — because the Python lambda
captures the loop variable late-bound (a code bug). -/
theorem tempEntries_wrong_group :
    (tempEntries ["coretemp", "acpitz"] tempsEx).map Prod.fst = ["coretemp", "acpitz"]
    ∧ lookupA "coretemp" (tempEntries ["coretemp", "acpitz"] tempsEx) = some 50
    ∧ tempsEx "coretemp" = 40 := ⟨rfl, rfl, rfl⟩

/-- Claim C4: a second `rate` call for a key stored as `(t1, v1)`, at a later
time `t2` with cumulative value `v2`, returns `(v2 - v1) / (t2 - t1)` rounded
to 2 significant digits (ties to even, per the decimal context) and
overwrites the stored state for the key with `(t2, v2)`. -/
theorem rate_consecutive (st : List (String × ℚ × ℚ)) (key : String) (t1 v1 t2 v2 : ℚ)
    (h : lookupA key st = some (t1, v1)) (hlt : t1 < t2) :
    rate st key v2 t2 = .ok (roundSig2 ((v2 - v1) / (t2 - t1)), setA key (t2, v2) st)
    ∧ lookupA key (setA key (t2, v2) st) = some (t2, v2) := by
  constructor
  · rw [rate, h]
    exact if_neg (ne_of_gt hlt)
  · exact lookupA_setA_self key (t2, v2) st

/-- Witness for claim C4 at key "k" stored as `(1, 5)`, called at time 2 with
value 25. -/
theorem rate_consecutive_w :
    rate [("k", (1, 5))] "k" 25 2
      = .ok (roundSig2 ((25 - 5) / (2 - 1)), setA "k" (2, 25) [("k", (1, 5))])
    ∧ lookupA "k" (setA "k" ((2 : ℚ), (25 : ℚ)) [("k", (1, 5))]) = some (2, 25) :=
  rate_consecutive [("k", (1, 5))] "k" 1 5 2 25 rfl (by norm_num)

/-- Claim C5: for every cumulative byte counter value, the `bytes_sent` and
`bytes_recv` sampling functions return the counter divided by 1,000,000
with integer (floor) division. -/
theorem bytesScaled_eq_div (c : ℕ) : bytesScaled c = ((c / 1000000 : ℕ) : ℤ) := by
  unfold bytesScaled pyInt
  rw [if_pos (by positivity)]
  rw [← Int.natCast_floor_eq_floor (by positivity)]
  exact_mod_cast Nat.floor_div_eq_div (α := ℚ) c 1000000

/-- Claim C6: the first `rate` call for a key absent from the store returns 0
without raising and records `(now, value)` for that key. -/
theorem rate_first (st : List (String × ℚ × ℚ)) (key : String) (v t : ℚ)
    (h : lookupA key st = none) :
    rate st key v t = .ok (0, setA key (t, v) st)
    ∧ lookupA key (setA key (t, v) st) = some (t, v) := by
  constructor
  · rw [rate, h]
  · exact lookupA_setA_self key (t, v) st

/-- Witness for claim C6 on the empty store. -/
theorem rate_first_w :
    rate [] "upload" 7 3 = .ok (0, setA "upload" (3, 7) [])
    ∧ lookupA "upload" (setA "upload" ((3 : ℚ), (7 : ℚ)) []) = some (3, 7) :=
  rate_first [] "upload" 7 3 rfl

/-- Claim C7: every connect or reconnect callback first publishes the
retained availability payload "online" on the status topic, then exactly one
retained discovery record per registry entry, each on the topic formed from
the discovery prefix, the slugified hostname and the metric key. -/
theorem onConnect_spec (props : List (String × MetricDef)) (haPre base host plat sys ver : String) :
    (onConnect props haPre base host plat sys ver).head? =
      some ⟨mqttStatusTopic base, JVal.str MQTT_AVAILABLE, true⟩
    ∧ ∀ i : ℕ, (onConnect props haPre base host plat sys ver)[i + 1]? =
        (props[i]?).map (fun pd =>
          ⟨haDiscoveryTopic haPre (slugify host) pd.1,
           JVal.obj (genHaConfig pd.1 pd.2 base host plat sys ver), true⟩) := by
  refine ⟨rfl, fun i => ?_⟩
  simp [onConnect]

/-- Claim C8: the discovery payload of a metric holds exactly the mandatory
fields plus the optional attributes present in the metric's definition, in
the fixed order, and an absent optional attribute yields no field at all. -/
theorem genHaConfig_optional_attrs (sensor : String) (d : MetricDef)
    (base host plat sys ver : String) :
    (genHaConfig sensor d base host plat sys ver).map Prod.fst
      = ["name", "unique_id", "object_id", "state_topic", "availability_topic",
         "payload_available", "payload_not_available", "device"]
        ++ OPTIONAL_ATTR.filter (fun a => (attrGet d a).isSome)
    ∧ ∀ a ∈ OPTIONAL_ATTR, attrGet d a = none →
        a ∉ (genHaConfig sensor d base host plat sys ver).map Prod.fst := by
  obtain ⟨dc, ic, un⟩ := d
  constructor
  · cases dc <;> cases ic <;> cases un <;> simp [genHaConfig, OPTIONAL_ATTR, attrGet]
  · intro a ha hnone
    fin_cases ha <;> cases dc <;> cases ic <;> cases un <;>
      simp_all [genHaConfig, OPTIONAL_ATTR, attrGet]

/-- Claim C9, counterexample: two distinct metric keys can produce the same
slugified unique identifier — keys "a_b" and "a-b" on host "h" both slugify
to "h-a-b", so the claim as stated (over every pair of distinct keys) fails. -/
theorem unique_id_collision :
    ("a_b" : String) ≠ "a-b"
    ∧ lookupA "unique_id" (genHaConfig "a_b" {} "base" "h" "p" "s" "v")
      = lookupA "unique_id" (genHaConfig "a-b" {} "base" "h" "p" "s" "v") := ⟨by decide, rfl⟩

/-- Claim C9, amended: for any two distinct keys among the seven statically
declared registry keys, on any one host, the slugified unique identifiers of
their discovery payloads are distinct. -/
theorem unique_id_distinct_static (host k1 k2 : String) (d1 d2 : MetricDef)
    (base plat sys ver : String)
    (h1 : k1 ∈ staticKeys) (h2 : k2 ∈ staticKeys) (hne : k1 ≠ k2) :
    lookupA "unique_id" (genHaConfig k1 d1 base host plat sys ver)
      ≠ lookupA "unique_id" (genHaConfig k2 d2 base host plat sys ver) := by
  rw [lookupA_genHaConfig_unique_id, lookupA_genHaConfig_unique_id]
  intro heq
  have hs : slugify (host ++ " " ++ k1) = slugify (host ++ " " ++ k2) := by
    injection heq with heq'
    injection heq'
  rw [uid_split, uid_split] at hs
  have hd : joinWords (words host.data ++ words k1.data)
      = joinWords (words host.data ++ words k2.data) := congrArg String.data hs
  have hjk : slugKey k1 = slugKey k2 :=
    joinWords_append_cancel _ _ _ (staticKeys_words_ne_nil k1 h1)
      (staticKeys_words_ne_nil k2 h2) hd
  exact hne (List.inj_on_of_nodup_map staticKeys_slug_nodup h1 h2 hjk)

/-- Witness for the amended claim C9 at keys "upload" and "download" on
host "h". -/
theorem unique_id_distinct_static_w :
    lookupA "unique_id" (genHaConfig "upload" {} "base" "h" "p" "s" "v")
      ≠ lookupA "unique_id" (genHaConfig "download" {} "base" "h" "p" "s" "v") :=
  unique_id_distinct_static "h" "upload" "download" {} {} "base" "p" "s" "v"
    (by decide) (by decide) (by decide)

/-- Claim C10: a `rate` call for one key leaves the stored entry of every
other key unchanged, whether the call succeeds or raises. -/
theorem rate_frame (st : List (String × ℚ × ℚ)) (key : String) (v t : ℚ) (k' : String)
    (h : k' ≠ key) : lookupA k' (rateStore st key v t) = lookupA k' st := by
  unfold rateStore rate
  cases hl : lookupA key st with
  | none => simpa using lookupA_setA_ne h (t, v) st
  | some p =>
    obtain ⟨lt, lv⟩ := p
    by_cases ht : t = lt
    · simp [ht]
    · simpa [ht] using lookupA_setA_ne h (t, v) st

/-- Witness for claim C10: updating key "b" leaves key "a" unchanged. -/
theorem rate_frame_w :
    lookupA "a" (rateStore [("a", (1, 2))] "b" 3 4) = lookupA "a" [("a", ((1 : ℚ), (2 : ℚ)))] :=
  rate_frame [("a", (1, 2))] "b" 3 4 "a" (by decide)

end PS2MQTT
